import Mathlib

/-!
Verification of the session-scoped conversational retrieval orchestration of the
DOCU_CHAT_REST_API service, shallowly embedded from the Python source.

The live application is `src/api.py` together with the `app` package modules
(`app/auth.py`, `app/rag_pipeline.py`, `app/ingest.py`, `app/rate_limiter.py`):
`api.py` imports `rate_limiter` and `chat_stream`, which exist only in the `app`
package (the top-level `auth.py` / `rag_pipeline.py` / `ingest.py` are stale
duplicates whose module set cannot satisfy `api.py`'s imports).  Definitions
below embed the `app` package modules; external collaborators (PDF loading,
text splitting, embedding, vector search, LLM generation, the filesystem) are
passed in as explicit parameters or modelled as explicit state, exactly at the
call boundaries where the source delegates to them.
-/

/-- A LangChain chat message as used by `app/rag_pipeline.py`: histories hold
`HumanMessage(content=question)` and `AIMessage(content=answer)` objects. -/
inductive Msg where
  | HumanMessage (content : String)
  | AIMessage (content : String)
deriving DecidableEq, Repr

/-- The `session_histories: dict` global of `app/rag_pipeline.py`, modelled as an
insertion-ordered association list (Python dicts preserve insertion order).
Keys are session ids, values the message lists.  A well-formed store has at
most one entry per key; the operations below implement the dict primitives
(`in`, indexing, item assignment, `del`) on this representation. -/
abbrev SessionStore := List (String × List Msg)

/-- The initial value of the `session_histories` global: the empty dict. -/
def session_histories : SessionStore := []

/-- Python `session_id in session_histories`. -/
def containsKey : SessionStore → String → Bool
  | [], _ => false
  | p :: ps, k => if p.1 = k then true else containsKey ps k

/-- Reading `session_histories[session_id]` (first matching entry), with the
read-side convention that an absent session has the empty history — the code
only indexes after ensuring the entry exists, so the default is unobservable
there. -/
def get_history : SessionStore → String → List Msg
  | [], _ => []
  | p :: ps, k => if p.1 = k then p.2 else get_history ps k

/-- Python `session_histories[session_id] = v` for a key that is already
present: the entry is updated in place, preserving dict order.  The code
mutates the aliased `chat_history` list, which is exactly an in-place update
of the dict entry. -/
def set_entry : SessionStore → String → List Msg → SessionStore
  | [], _, _ => []
  | p :: ps, k, v => if p.1 = k then (k, v) :: ps else p :: set_entry ps k v

/-- Python `del session_histories[session_id]`: removes the entry for the key
(all matching entries; a well-formed dict has exactly one). -/
def eraseKey : SessionStore → String → SessionStore
  | [], _ => []
  | p :: ps, k => if p.1 = k then eraseKey ps k else p :: eraseKey ps k

/-- The guard `if session_id not in session_histories: session_histories[session_id] = []`
at the top of both `chat` and `chat_stream`: a fresh key is appended at the end
of the dict with an empty history. -/
def ensure_session (st : SessionStore) (k : String) : SessionStore :=
  if containsKey st k then st else st ++ [(k, [])]

/-- The input dict handed to the LCEL chain `prompt | llm` in
`app/rag_pipeline.py`: `{"context": context, "chat_history": chat_history,
"question": question}`. -/
structure PromptInput where
  context : String
  chat_history : List Msg
  question : String
deriving DecidableEq, Repr

/-- `app/rag_pipeline.py` `chat`: ensure the session entry, read the aliased
history, retrieve (`retriever.ainvoke(question)` abstracted as `retriever`,
returning the page contents of the hits), join page contents with blank lines,
invoke the chain (`llm`, which may raise: `Except.error`), and on success
append `HumanMessage(question)` then `AIMessage(answer)` to the history.
Returns the Python return/raise outcome together with the state of
`session_histories` afterwards. -/
def chat (retriever : String → List String) (llm : PromptInput → Except String String)
    (st : SessionStore) (session_id question : String) :
    Except String String × SessionStore :=
  let st1 := ensure_session st session_id
  let chat_history := get_history st1 session_id
  let docs := retriever question
  let context := String.intercalate "\n\n" docs
  match llm ⟨context, chat_history, question⟩ with
  | Except.error e => (Except.error e, st1)
  | Except.ok answer =>
      (Except.ok answer,
        set_entry st1 session_id
          (chat_history ++ [Msg.HumanMessage question, Msg.AIMessage answer]))

/-- The running `full_answer += token` accumulation of `chat_stream`, starting
from `full_answer = ""` and folding the yielded tokens left to right. -/
def accumulate (full_answer : String) : List String → String
  | [] => full_answer
  | t :: ts => accumulate (full_answer ++ t) ts

/-- `app/rag_pipeline.py` `chat_stream`: the streaming chain `chain.astream`
is abstracted as `llm_stream`, returning the chunk contents it emits before
either completing (`none`) or raising mid-stream (`some message`).  The
generator yields exactly the truthy (non-empty) chunk contents (`if token:`),
accumulating them into `full_answer`; only on clean completion does it append
`HumanMessage(question)` and `AIMessage(full_answer)`.  Returns (tokens
yielded, error if the generator raised, final `session_histories`). -/
def chat_stream (retriever : String → List String)
    (llm_stream : PromptInput → List String × Option String)
    (st : SessionStore) (session_id question : String) :
    List String × Option String × SessionStore :=
  let st1 := ensure_session st session_id
  let chat_history := get_history st1 session_id
  let context := String.intercalate "\n\n" (retriever question)
  let out := llm_stream ⟨context, chat_history, question⟩
  let tokens := out.1.filter (fun t => t != "")
  match out.2 with
  | some e => (tokens, some e, st1)
  | none =>
      let full_answer := accumulate "" tokens
      (tokens, none,
        set_entry st1 session_id
          (chat_history ++ [Msg.HumanMessage question, Msg.AIMessage full_answer]))

/-- `app/rag_pipeline.py` `clear_session`:
`if session_id in session_histories: del session_histories[session_id]`. -/
def clear_session (st : SessionStore) (session_id : String) : SessionStore :=
  if containsKey st session_id then eraseKey st session_id else st

/-- The `token_generator` inner generator of `chat_stream_endpoint` in
`src/api.py`, as a function of the underlying stream outcome (tokens yielded
by `chat_stream` before it completed or raised): each token is framed as
`data: <token>\n\n`; a raise is caught and emitted as a single
`data: [ERROR] <message>\n\n` line; the `finally` block always emits
`data: [DONE]\n\n` last. -/
def token_generator (tokens : List String) (err : Option String) : List String :=
  tokens.map (fun t => "data: " ++ t ++ "\n\n")
    ++ (match err with
        | some e => ["data: [ERROR] " ++ e ++ "\n\n"]
        | none => [])
    ++ ["data: [DONE]\n\n"]

/-- The prompt-input dict both `chat` and `chat_stream` pass to their chain for
a given store, session and question. -/
def prompt_input (retriever : String → List String) (st : SessionStore)
    (session_id question : String) : PromptInput :=
  ⟨String.intercalate "\n\n" (retriever question),
   get_history (ensure_session st session_id) session_id, question⟩

/-- `n` sequential `chat` calls on one session, as issued by repeated `/chat`
requests: each call threads the updated `session_histories` into the next.
Returns the final store and the list of answers of the successful calls
(stopping at the first failure). -/
def run_chats (retriever : String → List String)
    (llm : PromptInput → Except String String) :
    SessionStore → String → List String → SessionStore × List String
  | st, _, [] => (st, [])
  | st, sid, q :: qs =>
      match chat retriever llm st sid q with
      | (Except.ok a, st') =>
          let r := run_chats retriever llm st' sid qs
          (r.1, a :: r.2)
      | (Except.error _, st') => (st', [])

/-- The rendering of question/answer pairs as the alternating
human/assistant message list the store keeps. -/
def turns_to_messages : List (String × String) → List Msg
  | [] => []
  | p :: ps => Msg.HumanMessage p.1 :: Msg.AIMessage p.2 :: turns_to_messages ps

/-- `app/auth.py` `verify_api_key`: `api_key` is the value of the
`PDF-CHAT-API-KEY` header (`none` when absent, since the `APIKeyHeader`
dependency uses `auto_error=False`); `env_api_key` is `os.getenv("API_KEY")`.
`if not api_key` rejects a missing or empty value with 401; a value unequal
to the environment secret is rejected with 403; otherwise the key is
returned. -/
def verify_api_key (env_api_key : Option String) (api_key : Option String) :
    Except Nat String :=
  match api_key with
  | none => Except.error 401
  | some k =>
      if k = "" then Except.error 401
      else if some k ≠ env_api_key then Except.error 403
      else Except.ok k

/-- The `VectorParams(size=..., distance=...)` configuration passed to Qdrant
`create_collection`. -/
structure VectorParams where
  size : Nat
  distance : String
deriving DecidableEq, Repr

/-- A Qdrant collection: its creation parameters and the stored points (chunk
texts stand in for the points; embeddings are attached by the external
provider). -/
structure QCollection where
  params : VectorParams
  points : List String
deriving DecidableEq, Repr

/-- The Qdrant server state visible through the client: a name-keyed map of
collections. -/
abbrev QdrantState := List (String × QCollection)

/-- `COLLECTION_NAME = "pdf_chat"` in `app/ingest.py`. -/
def COLLECTION_NAME : String := "pdf_chat"

/-- Looking a collection up by name on the server. -/
def qLookup : QdrantState → String → Option QCollection
  | [], _ => none
  | p :: ps, n => if p.1 = n then some p.2 else qLookup ps n

/-- `client.collection_exists(COLLECTION_NAME)`. -/
def collection_exists (q : QdrantState) (n : String) : Bool :=
  (qLookup q n).isSome

/-- `client.delete_collection(COLLECTION_NAME)`. -/
def delete_collection : QdrantState → String → QdrantState
  | [], _ => []
  | p :: ps, n =>
      if p.1 = n then delete_collection ps n else p :: delete_collection ps n

/-- `client.create_collection(collection_name, vectors_config)`: creates an
empty collection with the given parameters. -/
def create_collection (q : QdrantState) (n : String) (v : VectorParams) : QdrantState :=
  q ++ [(n, ⟨v, []⟩)]

/-- `vector_store.aadd_documents(chunks)`: appends the chunks to the named
collection's points. -/
def add_documents : QdrantState → String → List String → QdrantState
  | [], _, _ => []
  | p :: ps, n, docs =>
      if p.1 = n then (p.1, ⟨p.2.params, p.2.points ++ docs⟩) :: ps
      else p :: add_documents ps n docs

/-- `app/ingest.py` `ingest_pdf`: the `chunks` parameter abstracts the output
of `PyPDFLoader(...).load()` followed by `RecursiveCharacterTextSplitter`
(external libraries).  If the collection exists it is deleted; a fresh
collection is created with `VectorParams(size=1536, distance=Distance.COSINE)`;
the chunks are added; the call returns
`{"chunks_created": len(chunks), "status": "success"}`. -/
def ingest_pdf (q : QdrantState) (chunks : List String) : QdrantState × Nat × String :=
  let q1 := if collection_exists q COLLECTION_NAME
            then delete_collection q COLLECTION_NAME else q
  let q2 := create_collection q1 COLLECTION_NAME ⟨1536, "COSINE"⟩
  let q3 := add_documents q2 COLLECTION_NAME chunks
  (q3, chunks.length, "success")

/-- The uploaded-file temp storage on disk, as the list of existing paths. -/
abbrev FileSystem := List String

/-- `os.path.exists(path)`. -/
def path_exists (fs : FileSystem) (path : String) : Bool :=
  fs.contains path

/-- `src/api.py` `cleanup_file`: remove the file if it exists; any exception
is swallowed (removal itself is modelled as succeeding). -/
def cleanup_file (fs : FileSystem) (path : String) : FileSystem :=
  if path_exists fs path then fs.filter (fun x => x != path) else fs

/-- The file write of `save_upload` once validation has passed:
`open(save_path, "wb").write(contents)`. -/
def save_upload (fs : FileSystem) (save_path : String) : FileSystem :=
  fs ++ [save_path]

/-- The `/ingest` endpoint body of `src/api.py` after validation: save the
upload, run `ingest_pdf` (its outcome abstracted as `ingest_result`); on a
raise, run `cleanup_file` in the `except` branch and re-raise as a 500
`Ingestion failed:` error; in all cases run `cleanup_file` again in the
`finally` block. -/
def ingest (fs : FileSystem) (save_path : String)
    (ingest_result : Except String (Nat × String)) :
    Except String (Nat × String) × FileSystem :=
  let fs1 := save_upload fs save_path
  match ingest_result with
  | Except.ok r => (Except.ok r, cleanup_file fs1 save_path)
  | Except.error e =>
      let fs2 := cleanup_file fs1 save_path
      (Except.error ("Ingestion failed: " ++ e), cleanup_file fs2 save_path)

/-- The await-point structure of one `chat` call under asyncio's cooperative,
single-threaded scheduler: `start` = not yet run; `retrieved` = past the
session-entry guard and the `retriever.ainvoke` await; `generated` = past the
`chain.ainvoke` await; `done` = has executed the two history appends — which
have no await between them and therefore form one atomic block — and
returned. -/
inductive Phase where
  | start
  | retrieved
  | generated
  | done
deriving DecidableEq, Repr

/-- Global state of `n` concurrent `chat` calls on one session: the session's
history list (the single shared list object all calls alias) and each task's
phase. -/
structure CState (n : Nat) where
  hist : List Msg
  phase : Fin n → Phase

/-- One cooperative-scheduler step: an unfinished task runs from its current
await point to the next.  Only the final block (the two appends plus return)
touches the history, appending the task's question and its own answer
adjacently. -/
inductive Step {n : Nat} (qs ans : Fin n → String) : CState n → CState n → Prop where
  | retrieve (s : CState n) (i : Fin n) (h : s.phase i = Phase.start) :
      Step qs ans s ⟨s.hist, Function.update s.phase i Phase.retrieved⟩
  | generate (s : CState n) (i : Fin n) (h : s.phase i = Phase.retrieved) :
      Step qs ans s ⟨s.hist, Function.update s.phase i Phase.generated⟩
  | commit (s : CState n) (i : Fin n) (h : s.phase i = Phase.generated) :
      Step qs ans s
        ⟨s.hist ++ [Msg.HumanMessage (qs i), Msg.AIMessage (ans i)],
         Function.update s.phase i Phase.done⟩

/-- An interleaved execution: any finite sequence of scheduler steps. -/
def Reachable {n : Nat} (qs ans : Fin n → String) : CState n → CState n → Prop :=
  Relation.ReflTransGen (Step qs ans)

/-- All tasks pending on the session's initially empty history. -/
def init_state (n : Nat) : CState n := ⟨[], fun _ => Phase.start⟩

/-- The history contributed by the committed tasks, in commit order. -/
def commit_messages {n : Nat} (qs ans : Fin n → String) : List (Fin n) → List Msg
  | [] => []
  | i :: rest =>
      Msg.HumanMessage (qs i) :: Msg.AIMessage (ans i) :: commit_messages qs ans rest

/-- A history list is a well-formed conversation: even length, strictly
alternating `HumanMessage`/`AIMessage` pairs starting with a human
question. -/
def isQA : List Msg → Bool
  | [] => true
  | Msg.HumanMessage _ :: Msg.AIMessage _ :: rest => isQA rest
  | _ => false

/-- All histories in the store are well-formed conversations. -/
def store_ok (st : SessionStore) : Bool :=
  st.all (fun p => isQA p.2)

/-- The operations the service performs on `session_histories` over its
lifetime: `/chat` calls, `/chat/stream` calls and `DELETE /session/{id}`,
each with any generation outcome. -/
inductive SOp where
  | chatOp (session_id question : String)
  | streamOp (session_id question : String)
  | clearOp (session_id : String)

/-- The store after one service operation. -/
def apply_op (retriever : String → List String)
    (llm : PromptInput → Except String String)
    (llm_stream : PromptInput → List String × Option String)
    (st : SessionStore) : SOp → SessionStore
  | SOp.chatOp sid q => (chat retriever llm st sid q).2
  | SOp.streamOp sid q => (chat_stream retriever llm_stream st sid q).2.2
  | SOp.clearOp sid => clear_session st sid

/-- The store after a whole operation sequence, from a given store. -/
def run_ops (retriever : String → List String)
    (llm : PromptInput → Except String String)
    (llm_stream : PromptInput → List String × Option String) :
    SessionStore → List SOp → SessionStore
  | st, [] => st
  | st, op :: ops =>
      run_ops retriever llm llm_stream
        (apply_op retriever llm llm_stream st op) ops

/- ### Theorems -/

/- ### Basic store lemmas -/
theorem containsKey_append_self (st : SessionStore) (k : String) (v : List Msg) :
    containsKey (st ++ [(k, v)]) k = true := by
  induction st with
  | nil => simp [containsKey]
  | cons p ps ih => by_cases hp : p.1 = k <;> simp [containsKey, hp, ih]

theorem containsKey_ensure_session (st : SessionStore) (k : String) :
    containsKey (ensure_session st k) k = true := by
  unfold ensure_session
  by_cases h : containsKey st k
  · rw [if_pos h]; exact h
  · rw [if_neg h]; exact containsKey_append_self st k []

theorem get_history_append_nil (st : SessionStore) (k j : String) :
    get_history (st ++ [(k, [])]) j = get_history st j := by
  induction st with
  | nil => by_cases h : k = j <;> simp [get_history, h]
  | cons p ps ih => by_cases hp : p.1 = j <;> simp [get_history, hp, ih]

theorem get_history_ensure_session (st : SessionStore) (k j : String) :
    get_history (ensure_session st k) j = get_history st j := by
  unfold ensure_session
  by_cases h : containsKey st k
  · rw [if_pos h]
  · rw [if_neg h]; exact get_history_append_nil st k j

theorem get_history_set_entry_self (st : SessionStore) (k : String) (v : List Msg)
    (h : containsKey st k = true) :
    get_history (set_entry st k v) k = v := by
  induction st with
  | nil => simp [containsKey] at h
  | cons p ps ih =>
      by_cases hp : p.1 = k
      · simp [set_entry, get_history, hp]
      · simp only [containsKey, hp, if_neg, if_false] at h
        simp [set_entry, get_history, hp, ih h]

theorem get_history_set_entry_other (st : SessionStore) (k j : String) (v : List Msg)
    (h : j ≠ k) :
    get_history (set_entry st k v) j = get_history st j := by
  induction st with
  | nil => simp [set_entry]
  | cons p ps ih =>
      by_cases hp : p.1 = k
      · have hkj : k ≠ j := fun hh => h hh.symm
        have hpj : p.1 ≠ j := by rw [hp]; exact hkj
        simp [set_entry, get_history, hp, hkj, hpj]
      · by_cases hj : p.1 = j
        · simp [set_entry, get_history, hp, hj, h]
        · simp [set_entry, get_history, hp, hj, ih]

theorem containsKey_eraseKey (st : SessionStore) (k : String) :
    containsKey (eraseKey st k) k = false := by
  induction st with
  | nil => simp [eraseKey, containsKey]
  | cons p ps ih => by_cases hp : p.1 = k <;> simp [eraseKey, containsKey, hp, ih]

theorem get_history_eraseKey_self (st : SessionStore) (k : String) :
    get_history (eraseKey st k) k = [] := by
  induction st with
  | nil => simp [eraseKey, get_history]
  | cons p ps ih => by_cases hp : p.1 = k <;> simp [eraseKey, get_history, hp, ih]

theorem get_history_eraseKey_other (st : SessionStore) (k j : String) (h : j ≠ k) :
    get_history (eraseKey st k) j = get_history st j := by
  induction st with
  | nil => simp [eraseKey]
  | cons p ps ih =>
      by_cases hp : p.1 = k
      · have hpj : p.1 ≠ j := by rw [hp]; exact fun hh => h hh.symm
        simp [eraseKey, get_history, hp, hpj, ih, Ne.symm h]
      · by_cases hj : p.1 = j <;> simp [eraseKey, get_history, hp, hj, ih, h]

theorem get_history_clear_self (st : SessionStore) (k : String) :
    get_history (clear_session st k) k = [] := by
  unfold clear_session
  by_cases h : containsKey st k
  · rw [if_pos h]; exact get_history_eraseKey_self st k
  · rw [if_neg h]
    induction st with
    | nil => simp [get_history]
    | cons p ps ih =>
        by_cases hp : p.1 = k
        · simp [containsKey, hp] at h
        · simp only [containsKey, hp, if_neg, if_false] at h
          simp [get_history, hp, ih h]

theorem get_history_clear_other (st : SessionStore) (k j : String) (h : j ≠ k) :
    get_history (clear_session st k) j = get_history st j := by
  unfold clear_session
  by_cases hc : containsKey st k
  · rw [if_pos hc]; exact get_history_eraseKey_other st k j h
  · rw [if_neg hc]

/- ### Unfolding lemmas for the two orchestrator entry points -/

theorem chat_eq_match (R : String → List String) (L : PromptInput → Except String String)
    (st : SessionStore) (sid q : String) :
    chat R L st sid q =
      match L (prompt_input R st sid q) with
      | Except.error e => (Except.error e, ensure_session st sid)
      | Except.ok a =>
          (Except.ok a,
            set_entry (ensure_session st sid) sid
              (get_history (ensure_session st sid) sid
                ++ [Msg.HumanMessage q, Msg.AIMessage a])) := rfl

theorem chat_stream_eq_match (R : String → List String)
    (LS : PromptInput → List String × Option String)
    (st : SessionStore) (sid q : String) :
    chat_stream R LS st sid q =
      match (LS (prompt_input R st sid q)).2 with
      | some e =>
          ((LS (prompt_input R st sid q)).1.filter (fun t => t != ""), some e,
            ensure_session st sid)
      | none =>
          ((LS (prompt_input R st sid q)).1.filter (fun t => t != ""), none,
            set_entry (ensure_session st sid) sid
              (get_history (ensure_session st sid) sid
                ++ [Msg.HumanMessage q,
                    Msg.AIMessage (accumulate ""
                      ((LS (prompt_input R st sid q)).1.filter (fun t => t != "")))])) := by
  simp only [chat_stream, prompt_input]

/- ### Accumulation lemmas -/
theorem accumulate_filter_ne_empty (l : List String) (acc : String) :
    accumulate acc (l.filter (fun t => t != "")) = accumulate acc l := by
  induction l generalizing acc with
  | nil => rfl
  | cons t ts ih =>
      by_cases ht : t = ""
      · subst ht
        simp only [List.filter, bne_self_eq_false]
        rw [accumulate, String.append_empty]
        exact ih acc
      · have hb : (t != "") = true := bne_iff_ne.mpr ht
        simp only [List.filter, hb]
        rw [accumulate, accumulate]
        exact ih (acc ++ t)

/- ### Outcome lemmas for `chat` -/
theorem chat_error_store (R : String → List String) (L : PromptInput → Except String String)
    (st : SessionStore) (sid q e : String)
    (h : (chat R L st sid q).1 = Except.error e) :
    (chat R L st sid q).2 = ensure_session st sid := by
  rcases hL : L (prompt_input R st sid q) with e' | a
  · rw [chat_eq_match, hL]
  · rw [chat_eq_match, hL] at h
    exact absurd h (by simp)

theorem chat_ok_store (R : String → List String) (L : PromptInput → Except String String)
    (st : SessionStore) (sid q a : String)
    (h : (chat R L st sid q).1 = Except.ok a) :
    (chat R L st sid q).2 =
      set_entry (ensure_session st sid) sid
        (get_history (ensure_session st sid) sid
          ++ [Msg.HumanMessage q, Msg.AIMessage a]) := by
  rcases hL : L (prompt_input R st sid q) with e' | a'
  · rw [chat_eq_match, hL] at h
    exact absurd h (by simp)
  · rw [chat_eq_match, hL] at h
    have ha : a' = a := by simpa using h
    subst ha
    rw [chat_eq_match, hL]

theorem chat_ok_get_history (R : String → List String) (L : PromptInput → Except String String)
    (st : SessionStore) (sid q a : String)
    (h : (chat R L st sid q).1 = Except.ok a) :
    get_history (chat R L st sid q).2 sid =
      get_history st sid ++ [Msg.HumanMessage q, Msg.AIMessage a] := by
  rw [chat_ok_store R L st sid q a h,
    get_history_set_entry_self _ _ _ (containsKey_ensure_session st sid),
    get_history_ensure_session]

/- ### SSE framing lemmas -/
theorem wrap_inj (t u : String)
    (h : "data: " ++ t ++ "\n\n" = "data: " ++ u ++ "\n\n") : t = u := by
  apply String.ext
  have h2 : ("data: " ++ t ++ "\n\n").data = ("data: " ++ u ++ "\n\n").data :=
    congrArg String.data h
  have e1 : ("data: " ++ t ++ "\n\n").data = "data: ".data ++ (t.data ++ "\n\n".data) := rfl
  have e2 : ("data: " ++ u ++ "\n\n").data = "data: ".data ++ (u.data ++ "\n\n".data) := rfl
  rw [e1, e2] at h2
  exact List.append_cancel_right (List.append_cancel_left h2)

theorem errline_ne_done (e : String) :
    "data: [ERROR] " ++ e ++ "\n\n" ≠ "data: [DONE]\n\n" := by
  intro h
  have h2 := congrArg String.length h
  have hl1 : ("data: [ERROR] " : String).length = 14 := rfl
  have hl2 : ("\n\n" : String).length = 2 := rfl
  have hl3 : ("data: [DONE]\n\n" : String).length = 14 := rfl
  rw [String.length_append, String.length_append, hl1, hl2, hl3] at h2
  omega

theorem token_generator_getLast (tokens : List String) (err : Option String) :
    (token_generator tokens err).getLast? = some "data: [DONE]\n\n" := by
  unfold token_generator
  rcases err with _ | e <;> exact List.getLast?_concat _

theorem done_not_mem_wrapped (tokens : List String) (hnd : "[DONE]" ∉ tokens) :
    ("data: [DONE]\n\n" : String) ∉ tokens.map (fun t => "data: " ++ t ++ "\n\n") := by
  intro hmem
  rcases List.mem_map.mp hmem with ⟨t, ht, hwrap⟩
  have ht2 : t = "[DONE]" := wrap_inj t "[DONE]" (hwrap.trans rfl)
  exact hnd (ht2 ▸ ht)

theorem token_generator_count_done (tokens : List String) (err : Option String)
    (hnd : "[DONE]" ∉ tokens) :
    (token_generator tokens err).count "data: [DONE]\n\n" = 1 := by
  unfold token_generator
  rcases err with _ | e
  · rw [List.count_append, List.count_append]
    rw [List.count_eq_zero.mpr (done_not_mem_wrapped tokens hnd)]
    simp
  · rw [List.count_append, List.count_append]
    rw [List.count_eq_zero.mpr (done_not_mem_wrapped tokens hnd)]
    have hne : ("data: [DONE]\n\n" : String) ∉ ["data: [ERROR] " ++ e ++ "\n\n"] := by
      intro hmem
      simp only [List.mem_singleton] at hmem
      exact errline_ne_done e hmem.symm
    rw [List.count_eq_zero.mpr hne]
    simp

/-- **C5 (amended)**: every `/chat/stream` SSE stream — success, raise before
any token, or raise mid-stream — ends with the literal `data: [DONE]\n\n`
sentinel as its final element; the sentinel line occurs exactly once provided
no generated token is itself the string `[DONE]` (whose frame coincides with
the sentinel — see the counterexample); and when generation raised, the whole
stream is exactly the token frames followed by a single
`data: [ERROR] <message>\n\n` line and then the sentinel — so the error line
is strictly before the sentinel and no token frame follows either (the error
line is unique among the frames provided no token is `[ERROR] <message>`
itself). -/
theorem sse_stream_terminal_sentinel (tokens : List String) (err : Option String)
    (hnd : "[DONE]" ∉ tokens) :
    (token_generator tokens err).getLast? = some "data: [DONE]\n\n"
    ∧ (token_generator tokens err).count "data: [DONE]\n\n" = 1
    ∧ (∀ e, err = some e →
        token_generator tokens err =
          tokens.map (fun t => "data: " ++ t ++ "\n\n")
            ++ ["data: [ERROR] " ++ e ++ "\n\n", "data: [DONE]\n\n"])
    ∧ (∀ e, err = some e → "[ERROR] " ++ e ∉ tokens →
        (token_generator tokens err).count ("data: [ERROR] " ++ e ++ "\n\n") = 1) := by
  refine ⟨token_generator_getLast tokens err, token_generator_count_done tokens err hnd,
    ?_, ?_⟩
  · intro e he
    subst he
    simp [token_generator, List.append_assoc]
  · intro e he hne
    subst he
    unfold token_generator
    rw [List.count_append, List.count_append]
    have hmap : ("data: [ERROR] " ++ e ++ "\n\n" : String)
        ∉ tokens.map (fun t => "data: " ++ t ++ "\n\n") := by
      intro hmem
      rcases List.mem_map.mp hmem with ⟨t, ht, hwrap⟩
      have ht2 : t = "[ERROR] " ++ e := by
        apply wrap_inj
        rw [hwrap]
        apply String.ext
        simp [String.data_append]
      exact hne (ht2 ▸ ht)
    have h1 : List.count ("data: [ERROR] " ++ e ++ "\n\n")
        ["data: [ERROR] " ++ e ++ "\n\n"] = 1 := by simp
    have h2 : List.count ("data: [ERROR] " ++ e ++ "\n\n")
        ["data: [DONE]\n\n"] = 0 := by
      apply List.count_eq_zero.mpr
      intro hmem
      simp only [List.mem_singleton] at hmem
      exact errline_ne_done e hmem
    rw [List.count_eq_zero.mpr hmap, h1, h2]

/-- **C5 witness**: a concrete mid-stream failure, checked by applying the
theorem at explicit inputs. -/
theorem sse_stream_terminal_sentinel_witness :
    (token_generator ["hello"] (some "bad")).getLast? = some "data: [DONE]\n\n"
    ∧ (token_generator ["hello"] (some "bad")).count "data: [DONE]\n\n" = 1 :=
  ⟨(sse_stream_terminal_sentinel ["hello"] (some "bad") (by simp)).1,
   (sse_stream_terminal_sentinel ["hello"] (some "bad") (by simp)).2.1⟩

/- ### Outcome lemmas for `chat_stream` -/
theorem chat_stream_error_store (R : String → List String)
    (LS : PromptInput → List String × Option String)
    (st : SessionStore) (sid q e : String)
    (h : (chat_stream R LS st sid q).2.1 = some e) :
    (chat_stream R LS st sid q).2.2 = ensure_session st sid := by
  rcases hE : (LS (prompt_input R st sid q)).2 with _ | e'
  · rw [chat_stream_eq_match, hE] at h
    exact absurd h (by simp)
  · rw [chat_stream_eq_match, hE]

theorem chat_stream_ok_store (R : String → List String)
    (LS : PromptInput → List String × Option String)
    (st : SessionStore) (sid q : String)
    (h : (chat_stream R LS st sid q).2.1 = none) :
    (chat_stream R LS st sid q).2.2 =
      set_entry (ensure_session st sid) sid
        (get_history (ensure_session st sid) sid
          ++ [Msg.HumanMessage q,
              Msg.AIMessage (accumulate "" (chat_stream R LS st sid q).1)]) := by
  rcases hE : (LS (prompt_input R st sid q)).2 with _ | e'
  · rw [chat_stream_eq_match, hE]
  · rw [chat_stream_eq_match, hE] at h
    exact absurd h (by simp)

theorem chat_stream_tokens (R : String → List String)
    (LS : PromptInput → List String × Option String)
    (st : SessionStore) (sid q : String) :
    (chat_stream R LS st sid q).1
      = (LS (prompt_input R st sid q)).1.filter (fun t => t != "") := by
  rw [chat_stream_eq_match]
  rcases hE : (LS (prompt_input R st sid q)).2 with _ | e' <;> rfl

/-- **C1 (amended)**: if the generation call fails — blocking form: the chain
invocation raises; streaming form: the token stream raises mid-stream — then
no Turn is appended for the session: the history of every session id, as read
back from the store, is exactly what it was before the call.  (The mapping
itself is not always "exactly what it was": an unseen session id gains an
empty entry before generation is attempted — see the counterexample.)  A
mid-stream streaming failure still makes the endpoint generator emit the
terminal `data: [DONE]\n\n` completion signal as its final element. -/
theorem generation_failure_appends_no_turn (R : String → List String)
    (L : PromptInput → Except String String)
    (LS : PromptInput → List String × Option String)
    (st : SessionStore) (sid q : String) :
    (∀ e, (chat R L st sid q).1 = Except.error e →
        ∀ k, get_history (chat R L st sid q).2 k = get_history st k)
    ∧ (∀ e, (chat_stream R LS st sid q).2.1 = some e →
        (∀ k, get_history (chat_stream R LS st sid q).2.2 k = get_history st k)
        ∧ (token_generator (chat_stream R LS st sid q).1
            ((chat_stream R LS st sid q).2.1)).getLast? = some "data: [DONE]\n\n") := by
  constructor
  · intro e he k
    rw [chat_error_store R L st sid q e he, get_history_ensure_session]
  · intro e he
    refine ⟨fun k => ?_, token_generator_getLast _ _⟩
    rw [chat_stream_error_store R LS st sid q e he, get_history_ensure_session]

/-- **C1 counterexample**: the claim as stated ("the session history mapping is
exactly what it was before the call") is false: a failing generation on an
unseen session id leaves the mapping with a new empty entry for that id. -/
theorem generation_failure_mapping_changed :
    (chat (fun _ => []) (fun _ => Except.error "boom") session_histories "s" "q").1
        = Except.error "boom"
    ∧ (chat (fun _ => []) (fun _ => Except.error "boom") session_histories "s" "q").2
        = [("s", [])]
    ∧ ([("s", [])] : SessionStore) ≠ session_histories := by
  refine ⟨rfl, rfl, ?_⟩
  simp [session_histories]

/-- **C1 witness**: the amended theorem applied at a concrete failing model. -/
theorem generation_failure_appends_no_turn_witness :
    get_history (chat (fun _ => []) (fun _ => Except.error "oops")
        [("s", [Msg.HumanMessage "h", Msg.AIMessage "x"])] "s" "q").2 "s"
      = get_history [("s", [Msg.HumanMessage "h", Msg.AIMessage "x"])] "s"
    ∧ (token_generator (chat_stream (fun _ => []) (fun _ => (["t"], some "oops"))
          [("s", [Msg.HumanMessage "h", Msg.AIMessage "x"])] "s" "q").1
        ((chat_stream (fun _ => []) (fun _ => (["t"], some "oops"))
          [("s", [Msg.HumanMessage "h", Msg.AIMessage "x"])] "s" "q").2.1)).getLast?
      = some "data: [DONE]\n\n" :=
  ⟨(generation_failure_appends_no_turn (fun _ => []) (fun _ => Except.error "oops")
      (fun _ => (["t"], some "oops"))
      [("s", [Msg.HumanMessage "h", Msg.AIMessage "x"])] "s" "q").1 "oops" rfl "s",
   ((generation_failure_appends_no_turn (fun _ => []) (fun _ => Except.error "oops")
      (fun _ => (["t"], some "oops"))
      [("s", [Msg.HumanMessage "h", Msg.AIMessage "x"])] "s" "q").2 "oops" rfl).2⟩

/-- **C3**: for the same store, session and question — hence the same retrieved
context and prior history — and a deterministic model (the blocking chain
answers with the concatenation of the fragments the streaming chain would emit,
and the stream completes), the concatenation of the tokens yielded by
`chat_stream` equals the `chat` answer, and equals the answer text recorded in
the Turn `chat_stream` appends. -/
theorem stream_concat_matches_blocking (R : String → List String)
    (L : PromptInput → Except String String)
    (LS : PromptInput → List String × Option String)
    (hdet : ∀ x, L x = Except.ok (accumulate "" (LS x).1))
    (hcomplete : ∀ x, (LS x).2 = none)
    (st : SessionStore) (sid q : String) :
    (chat R L st sid q).1
        = Except.ok (accumulate "" (chat_stream R LS st sid q).1)
    ∧ get_history (chat_stream R LS st sid q).2.2 sid =
        get_history st sid
          ++ [Msg.HumanMessage q,
              Msg.AIMessage (accumulate "" (chat_stream R LS st sid q).1)] := by
  have htok := chat_stream_tokens R LS st sid q
  have hacc : accumulate "" (chat_stream R LS st sid q).1
      = accumulate "" (LS (prompt_input R st sid q)).1 := by
    rw [htok, accumulate_filter_ne_empty]
  constructor
  · rw [chat_eq_match, hdet (prompt_input R st sid q), hacc]
  · have h2 : (chat_stream R LS st sid q).2.1 = none := by
      rw [chat_stream_eq_match, hcomplete (prompt_input R st sid q)]
    rw [chat_stream_ok_store R LS st sid q h2,
      get_history_set_entry_self _ _ _ (containsKey_ensure_session st sid),
      get_history_ensure_session]

/-- **C3 witness**: a concrete deterministic model, with an empty fragment in
the stream (dropped by the `if token:` guard without affecting the
concatenation). -/
theorem stream_concat_matches_blocking_witness :
    (chat (fun _ => []) (fun _ => Except.ok "ab") [] "s" "q").1
      = Except.ok (accumulate ""
          (chat_stream (fun _ => []) (fun _ => (["a", "", "b"], none)) [] "s" "q").1) :=
  (stream_concat_matches_blocking (fun _ => []) (fun _ => Except.ok "ab")
    (fun _ => (["a", "", "b"], none)) (fun _ => rfl) (fun _ => rfl) [] "s" "q").1

/- ### Sequential chat calls (C6) -/

theorem run_chats_spec (R : String → List String)
    (L : PromptInput → Except String String)
    (hok : ∀ x, ∃ a, L x = Except.ok a) :
    ∀ (qs : List String) (st : SessionStore) (sid : String),
      (run_chats R L st sid qs).2.length = qs.length
      ∧ get_history (run_chats R L st sid qs).1 sid =
          get_history st sid
            ++ turns_to_messages (qs.zip (run_chats R L st sid qs).2) := by
  intro qs
  induction qs with
  | nil => intro st sid; simp [run_chats, turns_to_messages]
  | cons q qs ih =>
      intro st sid
      obtain ⟨a, ha⟩ := hok (prompt_input R st sid q)
      have hchat : chat R L st sid q =
          (Except.ok a,
            set_entry (ensure_session st sid) sid
              (get_history (ensure_session st sid) sid
                ++ [Msg.HumanMessage q, Msg.AIMessage a])) := by
        rw [chat_eq_match, ha]
      have hrun : run_chats R L st sid (q :: qs) =
          ((run_chats R L (chat R L st sid q).2 sid qs).1,
            a :: (run_chats R L (chat R L st sid q).2 sid qs).2) := by
        rw [run_chats, hchat]
      have hhist : get_history (chat R L st sid q).2 sid =
          get_history st sid ++ [Msg.HumanMessage q, Msg.AIMessage a] :=
        chat_ok_get_history R L st sid q a (by rw [hchat])
      obtain ⟨ihlen, ihhist⟩ := ih (chat R L st sid q).2 sid
      constructor
      · rw [hrun]
        simpa using ihlen
      · rw [hrun]
        simp only [List.zip_cons_cons, turns_to_messages]
        rw [ihhist, hhist, List.append_assoc]
        rfl

/-- **C6**: after a successful `chat(s, q)` returning `a`, the stored history
for `s` ends with the Turn `(q, a)` (precisely: it is the previous history
with `HumanMessage q, AIMessage a` appended); and `n` sequential successful
calls leave exactly `n` Turns in call order, each question paired with the
answer its own call produced. -/
theorem chat_turn_roundtrip (R : String → List String)
    (L : PromptInput → Except String String)
    (hok : ∀ x, ∃ a, L x = Except.ok a) :
    (∀ st sid q a, (chat R L st sid q).1 = Except.ok a →
        get_history (chat R L st sid q).2 sid =
          get_history st sid ++ [Msg.HumanMessage q, Msg.AIMessage a])
    ∧ (∀ qs st sid,
        (run_chats R L st sid qs).2.length = qs.length
        ∧ get_history (run_chats R L st sid qs).1 sid =
            get_history st sid
              ++ turns_to_messages (qs.zip (run_chats R L st sid qs).2)) :=
  ⟨fun st sid q a h => chat_ok_get_history R L st sid q a h,
   fun qs st sid => run_chats_spec R L hok qs st sid⟩

/-- **C6 witness**: two sequential successful calls on a fresh session. -/
theorem chat_turn_roundtrip_witness :
    (run_chats (fun _ => []) (fun x => Except.ok x.question) [] "s" ["q1", "q2"]).2.length = 2
    ∧ get_history
        (run_chats (fun _ => []) (fun x => Except.ok x.question) [] "s" ["q1", "q2"]).1 "s" =
        get_history ([] : SessionStore) "s"
          ++ turns_to_messages
              (["q1", "q2"].zip
                (run_chats (fun _ => []) (fun x => Except.ok x.question) [] "s" ["q1", "q2"]).2) :=
  (chat_turn_roundtrip (fun _ => []) (fun x => Except.ok x.question)
    (fun x => ⟨x.question, rfl⟩)).2 ["q1", "q2"] [] "s"

/-- **C9**: `clear_session` removes the session's entry so a subsequent read
sees an empty history; it is idempotent; clearing an absent session id is a
no-op (and, being a total function, never raises); and every other session
id's history is untouched. -/
theorem clear_session_spec :
    (∀ st sid, get_history (clear_session st sid) sid = [])
    ∧ (∀ st sid, clear_session (clear_session st sid) sid = clear_session st sid)
    ∧ (∀ st sid, containsKey st sid = false → clear_session st sid = st)
    ∧ (∀ st sid k, k ≠ sid →
        get_history (clear_session st sid) k = get_history st k) := by
  refine ⟨get_history_clear_self, ?_, ?_, fun st sid k h => get_history_clear_other st sid k h⟩
  · intro st sid
    by_cases h : containsKey st sid
    · simp [clear_session, h, containsKey_eraseKey]
    · simp [clear_session, h]
  · intro st sid h
    simp [clear_session, h]

/-- **C9 witness**: clearing a two-session store at concrete inputs. -/
theorem clear_session_spec_witness :
    get_history (clear_session [("a", [Msg.HumanMessage "q", Msg.AIMessage "r"]),
        ("b", [Msg.HumanMessage "x", Msg.AIMessage "y"])] "a") "a" = []
    ∧ clear_session ([] : SessionStore) "ghost" = []
    ∧ get_history (clear_session [("a", [Msg.HumanMessage "q", Msg.AIMessage "r"]),
        ("b", [Msg.HumanMessage "x", Msg.AIMessage "y"])] "a") "b"
      = get_history [("a", [Msg.HumanMessage "q", Msg.AIMessage "r"]),
        ("b", [Msg.HumanMessage "x", Msg.AIMessage "y"])] "b" :=
  ⟨clear_session_spec.1 _ "a",
   clear_session_spec.2.2.1 [] "ghost" rfl,
   clear_session_spec.2.2.2 _ "a" "b" (by decide)⟩

/- ### Authentication (`app/auth.py`) -/

/-- **C2 (amended)**: with a configured non-empty secret, a request with an
absent — or present but empty — API-key header is rejected with 401; a
present, non-empty value different from the secret is rejected with 403; and
the correct key passes authentication. -/
theorem verify_api_key_spec (secret : String) (hs : secret ≠ "") :
    verify_api_key (some secret) none = Except.error 401
    ∧ verify_api_key (some secret) (some "") = Except.error 401
    ∧ (∀ k, k ≠ "" → k ≠ secret →
        verify_api_key (some secret) (some k) = Except.error 403)
    ∧ verify_api_key (some secret) (some secret) = Except.ok secret := by
  refine ⟨rfl, rfl, ?_, ?_⟩
  · intro k hk hne
    simp [verify_api_key, hk, hne]
  · simp [verify_api_key, hs]

/-- **C2 counterexample**: a present-but-empty header value hits the falsy
`if not api_key` check and is rejected with 401, where the claim ("present but
not equal to the secret → 403") requires 403. -/
theorem verify_api_key_empty_header_401 :
    verify_api_key (some "sek") (some "") = Except.error 401
    ∧ verify_api_key (some "sek") (some "") ≠ Except.error 403 :=
  ⟨rfl, fun h => by simp [verify_api_key] at h⟩

/-- **C2 witness**: the amended theorem at a concrete secret and key. -/
theorem verify_api_key_spec_witness :
    verify_api_key (some "sek") none = Except.error 401
    ∧ verify_api_key (some "sek") (some "wrong") = Except.error 403
    ∧ verify_api_key (some "sek") (some "sek") = Except.ok "sek" :=
  ⟨(verify_api_key_spec "sek" (by decide)).1,
   (verify_api_key_spec "sek" (by decide)).2.2.1 "wrong" (by decide) (by decide),
   (verify_api_key_spec "sek" (by decide)).2.2.2⟩

/- ### Document indexing (`app/ingest.py`) -/

theorem qLookup_delete_collection (q : QdrantState) (n : String) :
    qLookup (delete_collection q n) n = none := by
  induction q with
  | nil => simp [delete_collection, qLookup]
  | cons p ps ih => by_cases hp : p.1 = n <;> simp [delete_collection, qLookup, hp, ih]

theorem qLookup_create_add (q : QdrantState) (n : String) (v : VectorParams)
    (docs : List String) (h : qLookup q n = none) :
    qLookup (add_documents (create_collection q n v) n docs) n = some ⟨v, docs⟩ := by
  induction q with
  | nil => simp [create_collection, add_documents, qLookup]
  | cons p ps ih =>
      by_cases hp : p.1 = n
      · simp [qLookup, hp] at h
      · simp only [qLookup, hp, if_neg, if_false] at h
        simp [create_collection, add_documents, qLookup, hp, List.cons_append] at ih ⊢
        exact ih h

theorem ingest_pdf_lookup (q : QdrantState) (chunks : List String) :
    qLookup (ingest_pdf q chunks).1 COLLECTION_NAME
      = some ⟨⟨1536, "COSINE"⟩, chunks⟩ := by
  unfold ingest_pdf
  by_cases h : collection_exists q COLLECTION_NAME
  · simp only [h, if_pos]
    exact qLookup_create_add _ _ _ _ (qLookup_delete_collection q COLLECTION_NAME)
  · simp only [h, Bool.false_eq_true, if_false]
    have hn : qLookup q COLLECTION_NAME = none := by
      unfold collection_exists at h
      exact Option.not_isSome_iff_eq_none.mp (by simpa using h)
    exact qLookup_create_add _ _ _ _ hn

/-- **C7**: indexing is destructive: after any `ingest_pdf`, the configured
collection holds exactly the new chunks with the fixed 1536-dimensional cosine
configuration, regardless of prior server state; in particular after indexing
document B over document A, a chunk is reachable only if it belongs to B — no
chunk of A survives, and at most one document corpus is active. -/
theorem ingest_is_destructive (q : QdrantState) (chunksA chunksB : List String) :
    qLookup (ingest_pdf q chunksA).1 COLLECTION_NAME
        = some ⟨⟨1536, "COSINE"⟩, chunksA⟩
    ∧ qLookup (ingest_pdf (ingest_pdf q chunksA).1 chunksB).1 COLLECTION_NAME
        = some ⟨⟨1536, "COSINE"⟩, chunksB⟩
    ∧ (∀ c col, qLookup (ingest_pdf (ingest_pdf q chunksA).1 chunksB).1 COLLECTION_NAME
          = some col → c ∈ col.points → c ∈ chunksB) := by
  refine ⟨ingest_pdf_lookup q chunksA, ingest_pdf_lookup _ chunksB, ?_⟩
  intro c col hcol hmem
  rw [ingest_pdf_lookup _ chunksB] at hcol
  cases hcol
  exact hmem

/-- **C7 witness**: indexing `["b1"]` over `["a1", "a2"]` from an empty server. -/
theorem ingest_is_destructive_witness :
    qLookup (ingest_pdf (ingest_pdf [] ["a1", "a2"]).1 ["b1"]).1 COLLECTION_NAME
        = some ⟨⟨1536, "COSINE"⟩, ["b1"]⟩
    ∧ ("b1" : String) ∈ (["b1"] : List String) :=
  ⟨(ingest_is_destructive [] ["a1", "a2"] ["b1"]).2.1,
   (ingest_is_destructive [] ["a1", "a2"] ["b1"]).2.2 "b1" ⟨⟨1536, "COSINE"⟩, ["b1"]⟩
     (ingest_is_destructive [] ["a1", "a2"] ["b1"]).2.1 (by simp)⟩

/- ### The `/ingest` endpoint's temp-file handling (`src/api.py`) -/

theorem contains_cleanup_file (fs : FileSystem) (path : String) :
    (cleanup_file fs path).contains path = false := by
  unfold cleanup_file
  by_cases h : path_exists fs path
  · rw [if_pos h]
    rw [List.contains_eq_any_beq]
    simp only [List.any_eq_false]
    intro x hx
    have hb : x ≠ path := bne_iff_ne.mp ((List.mem_filter.mp hx).2)
    simp [beq_iff_eq]
    exact fun hh => hb hh.symm
  · rw [if_neg h]
    unfold path_exists at h
    simpa using h

/-- **C8**: for every upload that was validated and saved, the temp file is
off the disk by the end of the `/ingest` request, whether indexing returned or
raised. -/
theorem temp_file_always_cleaned (fs : FileSystem) (save_path : String)
    (ingest_result : Except String (Nat × String)) :
    ((ingest fs save_path ingest_result).2.contains save_path) = false := by
  unfold ingest
  rcases ingest_result with e | r <;> exact contains_cleanup_file _ _

/- ### Concurrent chat calls on one session (C4) -/

theorem commit_messages_append {n : Nat} (qs ans : Fin n → String)
    (l₁ l₂ : List (Fin n)) :
    commit_messages qs ans (l₁ ++ l₂)
      = commit_messages qs ans l₁ ++ commit_messages qs ans l₂ := by
  induction l₁ with
  | nil => rfl
  | cons i rest ih => simp [commit_messages, ih]

theorem commit_messages_length {n : Nat} (qs ans : Fin n → String) (l : List (Fin n)) :
    (commit_messages qs ans l).length = 2 * l.length := by
  induction l with
  | nil => rfl
  | cons i rest ih => simp [commit_messages, ih]; omega

theorem step_invariant {n : Nat} (qs ans : Fin n → String) (s : CState n)
    (h : Reachable qs ans (init_state n) s) :
    ∃ l : List (Fin n), l.Nodup
      ∧ (∀ i, s.phase i = Phase.done ↔ i ∈ l)
      ∧ s.hist = commit_messages qs ans l := by
  induction h with
  | refl => exact ⟨[], by simp, fun i => by simp [init_state], rfl⟩
  | tail _ hstep ih =>
      obtain ⟨l, hnd, hiff, hhist⟩ := ih
      cases hstep with
      | retrieve i h =>
          refine ⟨l, hnd, fun j => ?_, hhist⟩
          by_cases hj : j = i
          · subst hj
            simp only [Function.update_same]
            constructor
            · intro hc; cases hc
            · intro hc
              exact absurd ((hiff j).mpr hc) (by rw [h]; intro hc2; cases hc2)
          · simp only [Function.update_noteq hj]
            exact hiff j
      | generate i h =>
          refine ⟨l, hnd, fun j => ?_, hhist⟩
          by_cases hj : j = i
          · subst hj
            simp only [Function.update_same]
            constructor
            · intro hc; cases hc
            · intro hc
              exact absurd ((hiff j).mpr hc) (by rw [h]; intro hc2; cases hc2)
          · simp only [Function.update_noteq hj]
            exact hiff j
      | commit i h =>
          have hni : i ∉ l := by
            intro hc
            exact absurd ((hiff i).mpr hc) (by rw [h]; intro hc2; cases hc2)
          refine ⟨l ++ [i], by simp [List.nodup_append, hnd, hni], fun j => ?_, ?_⟩
          · by_cases hj : j = i
            · subst hj
              simp [Function.update_same]
            · simp only [Function.update_noteq hj]
              simp only [List.mem_append, List.mem_singleton]
              constructor
              · intro hc; exact Or.inl ((hiff j).mp hc)
              · rintro (hc | hc)
                · exact (hiff j).mpr hc
                · exact absurd hc hj
          · rw [commit_messages_append, hhist]
            rfl

/-- **C4**: when several `chat` calls for the same session run concurrently —
interleaving at the await points between the history read and the history
append, as asyncio schedules them — every completed execution leaves the
history equal to one Turn block per call in some order: no Turn is lost
(final length is exactly two messages, one Turn, per call) and every
question is immediately followed by its own call's answer, never another
call's. -/
theorem concurrent_chats_no_lost_turn {n : Nat} (qs ans : Fin n → String)
    (s : CState n) (h : Reachable qs ans (init_state n) s)
    (hdone : ∀ i, s.phase i = Phase.done) :
    ∃ l : List (Fin n), l.Nodup ∧ (∀ i, i ∈ l)
      ∧ s.hist = commit_messages qs ans l
      ∧ s.hist.length = 2 * n := by
  obtain ⟨l, hnd, hiff, hhist⟩ := step_invariant qs ans s h
  have hall : ∀ i, i ∈ l := fun i => (hiff i).mp (hdone i)
  have hlen : l.length = n := by
    have h1 : l.toFinset = Finset.univ :=
      Finset.eq_univ_iff_forall.mpr (fun i => List.mem_toFinset.mpr (hall i))
    have h2 := List.toFinset_card_of_nodup hnd
    rw [h1] at h2
    simpa using h2.symm
  refine ⟨l, hnd, hall, hhist, ?_⟩
  rw [hhist, commit_messages_length, hlen]

/-- **C4 witness**: two concurrent calls whose awaits interleave
(task 0 retrieves, task 1 retrieves, task 1 generates, task 0 generates,
task 1 commits, task 0 commits), applied to the theorem. -/
theorem concurrent_chats_no_lost_turn_witness :
    ∃ l : List (Fin 2), l.Nodup ∧ (∀ i, i ∈ l)
      ∧ ([Msg.HumanMessage "q", Msg.AIMessage "a",
          Msg.HumanMessage "q", Msg.AIMessage "a"] : List Msg)
          = commit_messages (fun _ => "q") (fun _ => "a") l
      ∧ ([Msg.HumanMessage "q", Msg.AIMessage "a",
          Msg.HumanMessage "q", Msg.AIMessage "a"] : List Msg).length = 2 * 2 :=
  concurrent_chats_no_lost_turn (fun _ => "q") (fun _ => "a")
    ⟨[Msg.HumanMessage "q", Msg.AIMessage "a",
      Msg.HumanMessage "q", Msg.AIMessage "a"],
     Function.update (Function.update (Function.update (Function.update
       (Function.update (Function.update (fun _ => Phase.start)
         (0 : Fin 2) Phase.retrieved) (1 : Fin 2) Phase.retrieved)
         (1 : Fin 2) Phase.generated) (0 : Fin 2) Phase.generated)
         (1 : Fin 2) Phase.done) (0 : Fin 2) Phase.done⟩
    (Relation.ReflTransGen.tail
      (Relation.ReflTransGen.tail
        (Relation.ReflTransGen.tail
          (Relation.ReflTransGen.tail
            (Relation.ReflTransGen.tail
              (Relation.ReflTransGen.tail Relation.ReflTransGen.refl
                (Step.retrieve _ 0 (by decide)))
              (Step.retrieve _ 1 (by decide)))
            (Step.generate _ 1 (by decide)))
          (Step.generate _ 0 (by decide)))
        (Step.commit _ 1 (by decide)))
      (Step.commit _ 0 (by decide)))
    (by decide)

/- ### Alternation invariant of the session store (C10) -/

theorem isQA_append_pair : ∀ (l : List Msg) (q a : String), isQA l = true →
    isQA (l ++ [Msg.HumanMessage q, Msg.AIMessage a]) = true
  | [], _, _, _ => rfl
  | Msg.HumanMessage _ :: Msg.AIMessage _ :: rest, q, a, h =>
      isQA_append_pair rest q a h
  | [Msg.HumanMessage _], _, _, h => Bool.noConfusion h
  | Msg.HumanMessage _ :: Msg.HumanMessage _ :: _, _, _, h => Bool.noConfusion h
  | Msg.AIMessage _ :: _, _, _, h => Bool.noConfusion h

theorem isQA_even : ∀ l : List Msg, isQA l = true → l.length % 2 = 0
  | [], _ => rfl
  | Msg.HumanMessage _ :: Msg.AIMessage _ :: rest, h => by
      have hr := isQA_even rest h
      simp only [List.length_cons]
      omega
  | [Msg.HumanMessage _], h => Bool.noConfusion h
  | Msg.HumanMessage _ :: Msg.HumanMessage _ :: _, h => Bool.noConfusion h
  | Msg.AIMessage _ :: _, h => Bool.noConfusion h

theorem store_ok_get_history (st : SessionStore) (k : String)
    (h : store_ok st = true) : isQA (get_history st k) = true := by
  induction st with
  | nil => rfl
  | cons p ps ih =>
      simp only [store_ok, List.all_cons, Bool.and_eq_true] at h
      by_cases hp : p.1 = k
      · simpa [get_history, hp] using h.1
      · simp only [get_history, hp, if_neg, if_false]
        exact ih h.2

theorem store_ok_ensure_session (st : SessionStore) (k : String)
    (h : store_ok st = true) : store_ok (ensure_session st k) = true := by
  unfold ensure_session
  by_cases hc : containsKey st k
  · rw [if_pos hc]; exact h
  · rw [if_neg hc]
    simp only [store_ok, List.all_append] at h ⊢
    simp [h, isQA]

theorem store_ok_set_entry (st : SessionStore) (k : String) (v : List Msg)
    (h : store_ok st = true) (hv : isQA v = true) :
    store_ok (set_entry st k v) = true := by
  induction st with
  | nil => rfl
  | cons p ps ih =>
      simp only [store_ok, List.all_cons, Bool.and_eq_true] at h
      by_cases hp : p.1 = k
      · simp [set_entry, store_ok, hp, hv]
        simpa [store_ok] using h.2
      · simp only [set_entry, hp, if_neg, if_false]
        simp [store_ok, h.1]
        simpa [store_ok] using ih h.2

theorem store_ok_eraseKey (st : SessionStore) (k : String)
    (h : store_ok st = true) : store_ok (eraseKey st k) = true := by
  induction st with
  | nil => rfl
  | cons p ps ih =>
      simp only [store_ok, List.all_cons, Bool.and_eq_true] at h
      by_cases hp : p.1 = k
      · simp only [eraseKey, hp, if_pos]
        exact ih h.2
      · simp only [eraseKey, hp, if_neg, if_false]
        simp [store_ok, h.1]
        simpa [store_ok] using ih h.2

theorem store_ok_clear_session (st : SessionStore) (k : String)
    (h : store_ok st = true) : store_ok (clear_session st k) = true := by
  unfold clear_session
  by_cases hc : containsKey st k
  · rw [if_pos hc]; exact store_ok_eraseKey st k h
  · rw [if_neg hc]; exact h

theorem store_ok_chat (R : String → List String)
    (L : PromptInput → Except String String)
    (st : SessionStore) (sid q : String) (h : store_ok st = true) :
    store_ok (chat R L st sid q).2 = true := by
  rcases hL : L (prompt_input R st sid q) with e | a
  · rw [chat_error_store R L st sid q e (by rw [chat_eq_match, hL])]
    exact store_ok_ensure_session st sid h
  · rw [chat_ok_store R L st sid q a (by rw [chat_eq_match, hL])]
    exact store_ok_set_entry _ _ _ (store_ok_ensure_session st sid h)
      (isQA_append_pair _ q a
        (store_ok_get_history _ _ (store_ok_ensure_session st sid h)))

theorem store_ok_chat_stream (R : String → List String)
    (LS : PromptInput → List String × Option String)
    (st : SessionStore) (sid q : String) (h : store_ok st = true) :
    store_ok (chat_stream R LS st sid q).2.2 = true := by
  rcases hE : (LS (prompt_input R st sid q)).2 with _ | e
  · rw [chat_stream_ok_store R LS st sid q (by rw [chat_stream_eq_match, hE])]
    exact store_ok_set_entry _ _ _ (store_ok_ensure_session st sid h)
      (isQA_append_pair _ q _
        (store_ok_get_history _ _ (store_ok_ensure_session st sid h)))
  · rw [chat_stream_error_store R LS st sid q e (by rw [chat_stream_eq_match, hE])]
    exact store_ok_ensure_session st sid h

theorem store_ok_run_ops (R : String → List String)
    (L : PromptInput → Except String String)
    (LS : PromptInput → List String × Option String) :
    ∀ (ops : List SOp) (st : SessionStore), store_ok st = true →
      store_ok (run_ops R L LS st ops) = true := by
  intro ops
  induction ops with
  | nil => intro st h; exact h
  | cons op ops ih =>
      intro st h
      rw [run_ops]
      apply ih
      rcases op with ⟨sid, q⟩ | ⟨sid, q⟩ | sid
      · exact store_ok_chat R L st sid q h
      · exact store_ok_chat_stream R LS st sid q h
      · exact store_ok_clear_session st sid h

/-- **C10**: every session history reachable from the initial empty
`session_histories` by any sequence of `/chat` calls, `/chat/stream` calls
(any generation outcome) and `DELETE /session/{id}` operations has even
length and strictly alternates a human question followed by an assistant
answer, starting with a human message (`isQA` is exactly that shape, and
forces the even length, checked here explicitly per entry). -/
theorem session_histories_alternate (R : String → List String)
    (L : PromptInput → Except String String)
    (LS : PromptInput → List String × Option String) (ops : List SOp) :
    (run_ops R L LS session_histories ops).all
      (fun p => isQA p.2 && (p.2.length % 2 == 0)) = true := by
  have hok : store_ok (run_ops R L LS session_histories ops) = true :=
    store_ok_run_ops R L LS ops session_histories rfl
  rw [List.all_eq_true]
  intro p hp
  have h1 : isQA p.2 = true := by
    rw [store_ok, List.all_eq_true] at hok
    exact hok p hp
  have h2 : p.2.length % 2 = 0 := isQA_even p.2 h1
  simp [h1, h2]

/-- **C5 counterexample**: if the model emits the token `[DONE]`, its SSE
frame coincides with the sentinel line, which then occurs twice in the
stream — "exactly once" fails as literally stated, though the sentinel is
still the final element. -/
theorem sse_done_token_collision :
    (token_generator ["[DONE]"] none).count "data: [DONE]\n\n" = 2
    ∧ (token_generator ["[DONE]"] none).getLast? = some "data: [DONE]\n\n" :=
  ⟨rfl, rfl⟩
